import Mathlib

/-!
A verification development for a parser-combinator engine.

The embedding mirrors the source modules:

* `Stream` models `stream.rs`'s cursor: the residual input (`chars`, a
  suffix of the source) plus the full source text (`text`, standing for the
  shared context's `ctx.text`).  The context's mutable `Catcher` is modelled
  by threading a `Catcher` value through every parser explicitly.
* `ErrorMessage` / `Expected` / `Error` mirror `error.rs`.  The Rust
  `HashSet<ErrorMessage>` becomes `Finset ErrorMessage`.
* `Catcher` mirrors `context.rs`: the furthest-failure residual (`chars`),
  its message set, and the suppression flag `is_started`.
* A parser is a function `Stream → Catcher → Option (PResult R × Catcher)`.
  The `Option` layer models non-termination of the source: `none` stands
  for a run of the Rust code that never returns (the `many` loop is a hot
  loop that diverges when its inner parser keeps succeeding without
  consuming input).  All primitives return `some`.
-/

namespace PC

/-- Mirrors `Expected` in `error.rs` (structured expectation messages).
Constructor names are lower-cased forms of the Rust variant names. -/
inductive Expected where
  | char (c : Char)
  | str (s : String)
  | oneOf (s : String)
  | range (lo hi : Char)
  | rangeIncl (lo hi : Char)
  | rule (r : String)
deriving DecidableEq, Repr

/-- Mirrors `ErrorMessage` in `error.rs`. -/
inductive ErrorMessage where
  | text (s : String)
  | unexpectedEOF
  | expected (e : Expected)
deriving DecidableEq, Repr

/-- Mirrors `Stream` in `stream.rs`: `chars` is the residual input
(`self.chars`), `text` the full source (`self.ctx.text`). -/
structure Stream where
  chars : List Char
  text : List Char
deriving DecidableEq, Repr

/-- Mirrors `Stream::new`. -/
def Stream.new (text : List Char) : Stream :=
  { chars := text, text := text }

/-- Mirrors `Stream::rest_len`. -/
def Stream.rest_len (s : Stream) : Nat :=
  s.chars.length

/-- The end-of-input sentinel character, `parsers.rs`'s `EOF` constant. -/
def EOF : Char := Char.ofNat 0

/-- Mirrors `Stream::next`: the next character (or the sentinel when the
input is exhausted) together with the cursor past it. -/
def Stream.next (s : Stream) : Stream × Char :=
  match s.chars with
  | [] => ({ chars := [], text := s.text }, EOF)
  | c :: rest => ({ chars := rest, text := s.text }, c)

/-- Mirrors the `PartialEq` impl for `Stream`, which compares the residual
strings (`self.chars.as_str() == other.chars.as_str()`). -/
def Stream.eq (s1 s2 : Stream) : Bool :=
  s1.chars == s2.chars

/-- Mirrors `Error` in `error.rs`. -/
structure Error where
  stream : Stream
  messages : Finset ErrorMessage
deriving DecidableEq

/-- Mirrors `Error::new`. -/
def Error.new (stream : Stream) (message : ErrorMessage) : Error :=
  { stream := stream, messages := {message} }

/-- Mirrors `Error::or`: the furthest-wins merge.  Equal residual lengths
union the message sets (keeping `self`'s position); otherwise the error
with the smaller residual length wins. -/
def Error.or (self other : Error) : Error :=
  if self.stream.rest_len = other.stream.rest_len then
    { self with messages := self.messages ∪ other.messages }
  else if self.stream.rest_len < other.stream.rest_len then
    self
  else
    other

/-- Mirrors `Catcher` in `context.rs`. -/
structure Catcher where
  chars : List Char
  messages : Finset ErrorMessage
  is_started : Bool
deriving DecidableEq

/-- Mirrors `Catcher::new` (reached through `Context::new`): position at
the start of the text, no messages, flag on. -/
def Catcher.new (text : List Char) : Catcher :=
  { chars := text, messages := ∅, is_started := true }

/-- Mirrors `Catcher::pop_error`: take the recorded messages and swap the
recorded residual with `start_chars`, returning what was recorded. -/
def Catcher.pop_error (c : Catcher) (start_chars : List Char) :
    (List Char × Finset ErrorMessage) × Catcher :=
  ((c.chars, c.messages), { c with chars := start_chars, messages := ∅ })

/-- Mirrors `Catcher::set_error`. -/
def Catcher.set_error (c : Catcher) (err : Error) : Catcher :=
  { c with chars := err.stream.chars, messages := err.messages }

/-- Mirrors `Catcher::set_started` (returns the old flag). -/
def Catcher.set_started (c : Catcher) (b : Bool) : Bool × Catcher :=
  (c.is_started, { c with is_started := b })

/-- Mirrors `Stream::catch`: when the suppression flag is off
(`is_started` false) return the error unchanged; otherwise pop the
recorded furthest failure, merge it with the incoming error via
`Error::or`, store the result back, and return it. -/
def Stream.catch (s : Stream) (error : Error) (cat : Catcher) :
    Error × Catcher :=
  if cat.is_started = false then
    (error, cat)
  else
    let popped := cat.pop_error s.text
    let stream : Stream := { chars := popped.1.1, text := s.text }
    let err := error.or { stream := stream, messages := popped.1.2 }
    (err, popped.2.set_error err)

/-- Mirrors `PResult` in `error.rs` (`Result<(Stream, R), Error>`). -/
inductive PResult (R : Type) where
  | ok (s : Stream) (r : R)
  | error (e : Error)
deriving DecidableEq

/-- A parsing unit: `parse(cursor) → outcome`, with the shared catcher
threaded explicitly and `none` standing for divergence of the source. -/
def ParserFn (R : Type) : Type :=
  Stream → Catcher → Option (PResult R × Catcher)

/-- Mirrors `Stream::ok`. -/
def Stream.ok {R : Type} (s : Stream) (r : R) (cat : Catcher) :
    Option (PResult R × Catcher) :=
  some (PResult.ok s r, cat)

/-- Mirrors `Stream::err`: build an error at the current position,
register it with the catcher, and fail with the merged result. -/
def Stream.err {R : Type} (s : Stream) (message : ErrorMessage)
    (cat : Catcher) : Option (PResult R × Catcher) :=
  let r := s.catch (Error.new s message) cat
  some (PResult.error r.1, r.2)

/-- Mirrors `Parser::or` (`parser.rs`): ordered choice; both branches
failing merges the two errors via `Error::or` and registers the result. -/
def Parser.or {R : Type} (p1 p2 : ParserFn R) : ParserFn R := fun stream cat =>
  match p1 stream cat with
  | none => none
  | some (PResult.ok s r, cat1) => some (PResult.ok s r, cat1)
  | some (PResult.error err1, cat1) =>
    match p2 stream cat1 with
    | none => none
    | some (PResult.ok s r, cat2) => some (PResult.ok s r, cat2)
    | some (PResult.error err2, cat2) =>
      let r := Stream.catch err1.stream (err1.or err2) cat2
      some (PResult.error r.1, r.2)

/-- Mirrors `Parser::seq`. -/
def Parser.seq {R S : Type} (p1 : ParserFn R) (p2 : ParserFn S) :
    ParserFn (R × S) := fun stream cat =>
  match p1 stream cat with
  | none => none
  | some (PResult.error e, cat1) => some (PResult.error e, cat1)
  | some (PResult.ok s1 r1, cat1) =>
    match p2 s1 cat1 with
    | none => none
    | some (PResult.error e, cat2) => some (PResult.error e, cat2)
    | some (PResult.ok s2 r2, cat2) => Stream.ok s2 (r1, r2) cat2

/-- Mirrors `Parser::and_not`.  `dbg` stands for the Rust `{:?}`
rendering of the second parser used in the failure message. -/
def Parser.and_not {R S : Type} (p1 : ParserFn R) (p2 : ParserFn S)
    (dbg : String) : ParserFn R := fun stream cat =>
  match p1 stream cat with
  | none => none
  | some (PResult.error e, cat1) => some (PResult.error e, cat1)
  | some (PResult.ok s r, cat1) =>
    match p2 stream cat1 with
    | none => none
    | some (PResult.ok _ _, cat2) =>
      Stream.err stream (ErrorMessage.text (("unexpected ") ++ dbg)) cat2
    | some (PResult.error _, cat2) => Stream.ok s r cat2

/-- Mirrors `Parser::prepend`. -/
def Parser.prepend {R : Type} (p1 : ParserFn R) (p2 : ParserFn (List R)) :
    ParserFn (List R) := fun stream cat =>
  match p1 stream cat with
  | none => none
  | some (PResult.error e, cat1) => some (PResult.error e, cat1)
  | some (PResult.ok s1 r1, cat1) =>
    match p2 s1 cat1 with
    | none => none
    | some (PResult.error e, cat2) => some (PResult.error e, cat2)
    | some (PResult.ok s2 r2, cat2) => Stream.ok s2 (r1 :: r2) cat2

/-- Mirrors `Parser::opt`: on failure register the error and succeed
with `none` at the original cursor. -/
def Parser.opt {R : Type} (p : ParserFn R) : ParserFn (Option R) :=
  fun stream cat =>
  match p stream cat with
  | none => none
  | some (PResult.ok s r, cat1) => Stream.ok s (some r) cat1
  | some (PResult.error err, cat1) =>
    let r := stream.catch err cat1
    Stream.ok stream none r.2

/-- The loop body of `Parser::many`, indexed by fuel.  The source runs an
unbounded `loop`; exhausted fuel (`none`) models a run of that loop that
has not terminated within `rest_len + 1` iterations — in particular the
genuinely divergent runs where the inner parser keeps succeeding without
consuming input. -/
def manyLoop {R : Type} (p : ParserFn R) :
    Nat → List R → Stream → Catcher → Option (PResult (List R) × Catcher)
  | 0, _, _, _ => none
  | fuel + 1, acc, stream, cat =>
    match p stream cat with
    | none => none
    | some (PResult.ok s r, cat1) => manyLoop p fuel (acc ++ [r]) s cat1
    | some (PResult.error err, cat1) =>
      let c := stream.catch err cat1
      Stream.ok stream acc c.2

/-- Mirrors `Parser::many`: apply `p` until it fails, register the
terminating failure, succeed with the collected results. -/
def Parser.many {R : Type} (p : ParserFn R) : ParserFn (List R) :=
  fun stream cat => manyLoop p (stream.rest_len + 1) [] stream cat

/-- Mirrors `Parser::in_range` at the `RangeInclusive<usize>` bounds the
repository uses (`lo..=hi`); the failure message spells those bounds the
way Rust's `Debug` does. -/
def Parser.in_range {R : Type} (p : ParserFn R) (lo hi : Nat) :
    ParserFn (List R) := fun stream cat =>
  match Parser.many p stream cat with
  | none => none
  | some (PResult.error e, cat1) => some (PResult.error e, cat1)
  | some (PResult.ok s r, cat1) =>
    if lo ≤ r.length ∧ r.length ≤ hi then
      Stream.ok s r cat1
    else
      Stream.err stream
        (ErrorMessage.text
          (("not in range ") ++ toString lo ++ ("..=") ++ toString hi)) cat1

/-- Mirrors `Parser::map`. -/
def Parser.map {R S : Type} (p : ParserFn R) (func : R → S) : ParserFn S :=
  fun stream cat =>
  match p stream cat with
  | none => none
  | some (PResult.error e, cat1) => some (PResult.error e, cat1)
  | some (PResult.ok s r, cat1) => some (PResult.ok s (func r), cat1)

/-- Mirrors `Parser::as_string` at the element type the repository uses. -/
def Parser.as_string (p : ParserFn (List Char)) : ParserFn String :=
  Parser.map p (fun r => String.mk r)

/-- Mirrors `Parser::some` (`p.prepend(p.many())`). -/
def Parser.some {R : Type} (p : ParserFn R) : ParserFn (List R) :=
  Parser.prepend p (Parser.many p)

/-- Mirrors `Parser::ignore_prev`. -/
def Parser.ignore_prev {R S : Type} (p1 : ParserFn R) (p2 : ParserFn S) :
    ParserFn S := fun stream cat =>
  match p1 stream cat with
  | Option.none => Option.none
  | Option.some (PResult.error e, cat1) => Option.some (PResult.error e, cat1)
  | Option.some (PResult.ok s1 _, cat1) =>
    match p2 s1 cat1 with
    | Option.none => Option.none
    | Option.some (PResult.error e, cat2) => Option.some (PResult.error e, cat2)
    | Option.some (PResult.ok s2 r2, cat2) => Stream.ok s2 r2 cat2

/-- Mirrors `Parser::ignore_this`. -/
def Parser.ignore_this {R S : Type} (p1 : ParserFn R) (p2 : ParserFn S) :
    ParserFn R := fun stream cat =>
  match p1 stream cat with
  | Option.none => Option.none
  | Option.some (PResult.error e, cat1) => Option.some (PResult.error e, cat1)
  | Option.some (PResult.ok s1 r1, cat1) =>
    match p2 s1 cat1 with
    | Option.none => Option.none
    | Option.some (PResult.error e, cat2) => Option.some (PResult.error e, cat2)
    | Option.some (PResult.ok s2 _, cat2) => Stream.ok s2 r1 cat2

/-- Mirrors `Parser::opt_default`; `dflt` stands for the `Default`
instance's value in the Rust code. -/
def Parser.opt_default {R : Type} (p : ParserFn R) (dflt : R) : ParserFn R :=
  fun stream cat =>
  match Parser.opt p stream cat with
  | Option.none => Option.none
  | Option.some (PResult.error e, cat1) => Option.some (PResult.error e, cat1)
  | Option.some (PResult.ok s r, cat1) => Stream.ok s (r.getD dflt) cat1

/-- Mirrors `Parser::list`. -/
def Parser.list {R S : Type} (p : ParserFn R) (sep : ParserFn S) :
    ParserFn (List R) :=
  Parser.prepend p (Parser.many (Parser.ignore_prev sep p))

/-- Mirrors `Parser::list_trailing`. -/
def Parser.list_trailing {R S : Type} (p : ParserFn R) (sep : ParserFn S) :
    ParserFn (List R) :=
  Parser.ignore_this (Parser.prepend p (Parser.many (Parser.ignore_prev sep p)))
    (Parser.opt sep)

/-- Mirrors `Parser::rule`: force the suppression flag off around the
inner parser (saving and restoring the old value), and replace a failing
inner parser's whole message set with the single named-rule message. -/
def Parser.rule {R : Type} (p : ParserFn R) (rule : String) : ParserFn R :=
  fun stream cat =>
  let saved := cat.set_started false
  match p stream saved.2 with
  | Option.none => Option.none
  | Option.some (res, cat2) =>
    let res' : PResult R :=
      match res with
      | PResult.ok s r => PResult.ok s r
      | PResult.error err =>
        PResult.error
          { err with messages := {ErrorMessage.expected (Expected.rule rule)} }
    Option.some (res', { cat2 with is_started := saved.1 })

/-- Mirrors `impl Parser for char` (`parsers.rs`). -/
def charP (c : Char) : ParserFn Char := fun stream cat =>
  let n := stream.next
  if n.2 = c then
    Stream.ok n.1 n.2 cat
  else
    Stream.err stream (ErrorMessage.expected (Expected.char c)) cat

/-- The character-by-character loop of `impl Parser for &'static str`:
`lit` is the whole literal, the first list argument the characters still
to match, then the current cursor and the saved start cursor. -/
def strAux (lit : String) :
    List Char → Stream → Stream → Catcher → Option (PResult String × Catcher)
  | [], stream, _, cat => Stream.ok stream lit cat
  | ch :: rest, stream, start, cat =>
    let n := stream.next
    if ch ≠ n.2 then
      Stream.err start (ErrorMessage.expected (Expected.str lit)) cat
    else
      strAux lit rest n.1 start cat

/-- Mirrors `impl Parser for &'static str`. -/
def strP (lit : String) : ParserFn String := fun stream cat =>
  strAux lit lit.toList stream stream cat

/-- Mirrors `impl Parser for Range<char>` (exclusive upper bound). -/
def rangeP (lo hi : Char) : ParserFn Char := fun stream cat =>
  let n := stream.next
  if lo ≤ n.2 ∧ n.2 < hi then
    Stream.ok n.1 n.2 cat
  else
    Stream.err stream (ErrorMessage.expected (Expected.range lo hi)) cat

/-- Mirrors `impl Parser for RangeInclusive<char>`. -/
def rangeInclP (lo hi : Char) : ParserFn Char := fun stream cat =>
  let n := stream.next
  if lo ≤ n.2 ∧ n.2 ≤ hi then
    Stream.ok n.1 n.2 cat
  else
    Stream.err stream (ErrorMessage.expected (Expected.rangeIncl lo hi)) cat

/-- Mirrors `OneOf` / `one_of`: the matched set as the character list of
the original string, which is also kept for the message. -/
def oneOfP (chars : List Char) (name : String) : ParserFn Char :=
  fun stream cat =>
  let n := stream.next
  if n.2 ∈ chars then
    Stream.ok n.1 n.2 cat
  else
    Stream.err stream (ErrorMessage.expected (Expected.oneOf name)) cat

/-- Mirrors `one_of`. -/
def one_of (s : String) : ParserFn Char :=
  oneOfP s.toList s

/-- Mirrors `impl Parser for Any`. -/
def anyP : ParserFn Char := fun stream cat =>
  let n := stream.next
  if n.2 ≠ EOF then
    Stream.ok n.1 n.2 cat
  else
    Stream.err stream ErrorMessage.unexpectedEOF cat

/-- The value of one hexadecimal digit, as `u32::from_str_radix(_, 16)`
assigns it (the digits fed to it match `0-9a-fA-F`). -/
def hexDigitVal (c : Char) : Nat :=
  if '0' ≤ c ∧ c ≤ '9' then c.toNat - ('0').toNat
  else if 'a' ≤ c ∧ c ≤ 'f' then c.toNat - ('a').toNat + 10
  else c.toNat - ('A').toNat + 10

/-- `u32::from_str_radix(&String::from_iter(digits), 16)` on a list of hex
digits. -/
def hexToNat (ds : List Char) : Nat :=
  ds.foldl (fun a c => a * 16 + hexDigitVal c) 0

/-- Rust's `format!("{:x}", n)`: lowercase hexadecimal digits. -/
def natToHex (n : Nat) : String :=
  String.mk (Nat.toDigits 16 n)

/-- The local `digit` parser of `escape_code` in `common.rs`:
`('0'..='9').or('a'..='f').or('A'..='F')`. -/
def hexDigitP : ParserFn Char :=
  Parser.or (Parser.or (rangeInclP '0' '9') (rangeInclP 'a' 'f'))
    (rangeInclP 'A' 'F')

/-- Mirrors the inner `escape_code` of `common.rs`'s `escape`: `\xHH`
with exactly two hex digits or `\u{H..H}` with one to six, decoded and
checked against `char::from_u32` (valid unicode scalar values). -/
def escape_code : ParserFn Char := fun stream cat =>
  let digit := hexDigitP
  let p := Parser.or
    (Parser.ignore_prev (strP ("\\x")) (Parser.in_range digit 2 2))
    (Parser.ignore_this
      (Parser.ignore_prev (strP ("\\u\x7b")) (Parser.in_range digit 1 6))
      (charP '\x7d'))
  match p stream cat with
  | Option.none => Option.none
  | Option.some (PResult.error e, cat1) => Option.some (PResult.error e, cat1)
  | Option.some (PResult.ok s digits, cat1) =>
    let code := hexToNat digits
    if Nat.isValidChar code then
      Stream.ok s (Char.ofNat code) cat1
    else
      Stream.err stream
        (ErrorMessage.text (("invalid unicode code ") ++ natToHex code)) cat1

/-- Mirrors `common.rs`'s `escape`: the ordered choice of the simple
escapes and `escape_code`, wrapped in `rule("escape")`. -/
def escape : ParserFn Char := fun stream cat =>
  let p := Parser.or (Parser.or (Parser.or (Parser.or (Parser.or
    (Parser.map (strP ("\\n")) (fun _ => '\n'))
    (Parser.map (strP ("\\0")) (fun _ => Char.ofNat 0)))
    (Parser.map (strP ("\\r")) (fun _ => '\r')))
    (Parser.map (strP ("\\t")) (fun _ => '\t')))
    (Parser.map (strP ("\\\\")) (fun _ => '\\')))
    escape_code
  Parser.rule p ("escape") stream cat

/-- Membership in the character classes matched by `hexDigitP`. -/
def isHexChar (c : Char) : Prop :=
  ('0' ≤ c ∧ c ≤ '9') ∨ ('a' ≤ c ∧ c ≤ 'f') ∨ ('A' ≤ c ∧ c ≤ 'F')

instance (c : Char) : Decidable (isHexChar c) := by
  unfold isHexChar
  infer_instance

/-- Monotone consumption: every successful outcome's residual length is
at most the input cursor's residual length. -/
def Mono {R : Type} (p : ParserFn R) : Prop :=
  ∀ s cat s' r cat', p s cat = Option.some (PResult.ok s' r, cat') →
    s'.rest_len ≤ s.rest_len

/-- A chain of successful applications of `p`, as performed by the
`many` loop before its terminating failed attempt: from cursor/catcher
`(s, cat)` to `(s', cat')`, collecting the results in order. -/
inductive ManyChain {R : Type} (p : ParserFn R) :
    Stream → Catcher → Stream → Catcher → List R → Prop where
  | nil (s : Stream) (cat : Catcher) : ManyChain p s cat s cat []
  | cons (s : Stream) (cat : Catcher) (s1 : Stream) (r : R) (cat1 : Catcher)
      (s2 : Stream) (cat2 : Catcher) (rs : List R) :
      p s cat = Option.some (PResult.ok s1 r, cat1) →
      ManyChain p s1 cat1 s2 cat2 rs →
      ManyChain p s cat s2 cat2 (r :: rs)

/-- A parsing unit that always succeeds without consuming anything
(in the source, the closure `|s: Stream| s.ok(())` is such a parser). -/
def epsP : ParserFn Unit := fun s cat => Stream.ok s () cat

/-- A sample error at residual length 2. -/
def eW1 : Error := Error.new (Stream.new ['a', 'b']) ErrorMessage.unexpectedEOF

/-- A sample error over the same source at residual length 1. -/
def eW2 : Error :=
  Error.new { chars := ['b'], text := ['a', 'b'] } (ErrorMessage.text ("x"))

/-- A sample error over the same source, also at residual length 2. -/
def eW3 : Error := Error.new (Stream.new ['a', 'b']) (ErrorMessage.text ("y"))

/-- The catcher state left behind by running `"ab".seq('c')` on the
source `"abd"`: it records the failure of `'c'` at residual length 1. -/
def c4CatX : Catcher :=
  match Parser.seq (strP ("ab")) (charP 'c') (Stream.new (("abd").toList))
      (Catcher.new (("abd").toList)) with
  | Option.some (_, cat) => cat
  | Option.none => Catcher.new []

theorem Stream.next_fst_rest_len (s : Stream) : s.next.1.rest_len ≤ s.rest_len := by
  rcases s with ⟨chars, text⟩
  cases chars with
  | nil => simp [Stream.next, Stream.rest_len]
  | cons c rest => simp [Stream.next, Stream.rest_len]

/-- Claim C1: `Error::or` is position-precedent and order-independent —
unequal residual lengths keep the error with the smaller residual length
in either argument order; equal residual lengths produce the union of
the two message sets in either argument order. -/
theorem c1_error_or_position_precedent (e1 e2 : Error) :
    (e1.stream.rest_len ≠ e2.stream.rest_len →
      (e1.or e2 = if e1.stream.rest_len < e2.stream.rest_len then e1 else e2) ∧
      e2.or e1 = e1.or e2) ∧
    (e1.stream.rest_len = e2.stream.rest_len →
      (e1.or e2).messages = e1.messages ∪ e2.messages ∧
      (e2.or e1).messages = e1.messages ∪ e2.messages) := by
  constructor
  · intro hne
    unfold Error.or
    rcases Nat.lt_or_ge e1.stream.rest_len e2.stream.rest_len with h | h
    · rw [if_neg hne, if_pos h]
      refine ⟨rfl, ?_⟩
      rw [if_neg (Ne.symm hne), if_neg (Nat.not_lt.mpr (Nat.le_of_lt h))]
    · have h' : e2.stream.rest_len < e1.stream.rest_len :=
        Nat.lt_of_le_of_ne h (fun he => hne he.symm)
      rw [if_neg hne, if_neg (Nat.not_lt.mpr h)]
      refine ⟨rfl, ?_⟩
      rw [if_neg (Ne.symm hne), if_pos h']
  · intro heq
    unfold Error.or
    rw [if_pos heq, if_pos heq.symm]
    exact ⟨rfl, Finset.union_comm e2.messages e1.messages⟩

theorem c1_witness :
    ((eW1.or eW2 = if eW1.stream.rest_len < eW2.stream.rest_len then eW1 else eW2) ∧
      eW2.or eW1 = eW1.or eW2) ∧
    ((eW1.or eW3).messages = eW1.messages ∪ eW3.messages ∧
      (eW3.or eW1).messages = eW1.messages ∪ eW3.messages) :=
  ⟨(c1_error_or_position_precedent eW1 eW2).1 (by decide),
    (c1_error_or_position_precedent eW1 eW3).2 (by decide)⟩

/-- Claim C2: `Parser::rule` replaces a failing inner parser's whole
message set with the single structured named-rule message, whatever the
inner parser's own failure carried. -/
theorem c2_rule_single_message {R : Type} (a : ParserFn R) (name : String)
    (s : Stream) (cat : Catcher) (err : Error) (cat1 : Catcher)
    (h : a s { cat with is_started := false } =
      Option.some (PResult.error err, cat1)) :
    Parser.rule a name s cat =
      Option.some
        (PResult.error
          { err with messages := {ErrorMessage.expected (Expected.rule name)} },
          { cat1 with is_started := cat.is_started }) := by
  simp only [Parser.rule, Catcher.set_started, h]

theorem c2_witness :
    Parser.rule (charP 'a') ("r") (Stream.new ['b']) (Catcher.new ['b']) =
      Option.some
        (PResult.error
          { stream := Stream.new ['b'],
            messages := {ErrorMessage.expected (Expected.rule ("r"))} },
          Catcher.new ['b']) :=
  c2_rule_single_message (charP 'a') ("r") (Stream.new ['b']) (Catcher.new ['b'])
    (Error.new (Stream.new ['b']) (ErrorMessage.expected (Expected.char 'a')))
    { Catcher.new ['b'] with is_started := false } (by decide)

/-- Claim C3: with the suppression flag active (`is_started` false),
`Stream::catch` returns the error unchanged and leaves the whole catcher
(position, messages, flag) unchanged; and `Parser::rule` restores the
flag to exactly its prior value whenever it returns, on success and on
failure alike. -/
theorem c3_catch_suppressed_rule_restores :
    (∀ (s : Stream) (err : Error) (cat : Catcher), cat.is_started = false →
      Stream.catch s err cat = (err, cat)) ∧
    (∀ (R : Type) (a : ParserFn R) (name : String) (s : Stream)
      (cat : Catcher) (res : PResult R) (cat2 : Catcher),
      Parser.rule a name s cat = Option.some (res, cat2) →
      cat2.is_started = cat.is_started) := by
  constructor
  · intro s err cat h
    unfold Stream.catch
    rw [if_pos h]
  · intro R a name s cat res cat2 h
    simp only [Parser.rule, Catcher.set_started] at h
    rcases ha : a s { cat with is_started := false } with _ | ⟨res0, c0⟩
    · rw [ha] at h
      cases h
    · rw [ha] at h
      rw [Option.some.injEq, Prod.mk.injEq] at h
      rw [← h.2]

theorem c3_witness :
    Stream.catch (Stream.new ['a'])
        (Error.new (Stream.new ['a']) ErrorMessage.unexpectedEOF)
        { Catcher.new ['a'] with is_started := false } =
      (Error.new (Stream.new ['a']) ErrorMessage.unexpectedEOF,
        { Catcher.new ['a'] with is_started := false }) ∧
    (Catcher.new ['a']).is_started = (Catcher.new ['a']).is_started :=
  ⟨c3_catch_suppressed_rule_restores.1 _ _ _ rfl,
    c3_catch_suppressed_rule_restores.2 Char (charP 'a') ("r")
      (Stream.new ['a']) (Catcher.new ['a'])
      (PResult.ok { chars := [], text := ['a'] } 'a') (Catcher.new ['a'])
      (by decide)⟩

/-- Claim C6: `Parser::opt` always succeeds — when the inner parser
succeeds it passes the cursor and value through wrapped in `some`; when
the inner parser fails it registers the error and succeeds with `none`
at the original cursor, consuming nothing. -/
theorem c6_opt_total {R : Type} (a : ParserFn R) (s : Stream) (cat : Catcher) :
    (∀ s1 r cat1, a s cat = Option.some (PResult.ok s1 r, cat1) →
      Parser.opt a s cat = Option.some (PResult.ok s1 (Option.some r), cat1)) ∧
    (∀ err cat1, a s cat = Option.some (PResult.error err, cat1) →
      Parser.opt a s cat =
        Option.some (PResult.ok s Option.none, (s.catch err cat1).2)) := by
  constructor
  · intro s1 r cat1 h
    unfold Parser.opt
    rw [h]
    rfl
  · intro err cat1 h
    unfold Parser.opt
    rw [h]
    rfl

theorem c6_witness :
    Parser.opt (charP 'a') (Stream.new ['b']) (Catcher.new ['b']) =
      Option.some (PResult.ok (Stream.new ['b']) Option.none,
        ((Stream.new ['b']).catch
          { stream := Stream.new ['b'],
            messages := {ErrorMessage.expected (Expected.char 'a')} }
          { chars := ['b'],
            messages := {ErrorMessage.expected (Expected.char 'a')},
            is_started := true }).2) :=
  (c6_opt_total (charP 'a') (Stream.new ['b']) (Catcher.new ['b'])).2
    { stream := Stream.new ['b'],
      messages := {ErrorMessage.expected (Expected.char 'a')} }
    { chars := ['b'],
      messages := {ErrorMessage.expected (Expected.char 'a')},
      is_started := true } (by decide)

/-- Claim C10: advancing at end of input yields the sentinel character
with the cursor unchanged; the literal-character parser for the public
`EOF` constant therefore succeeds at end of input consuming nothing; and
the sentinel is produced exactly when the input is exhausted or the next
source character is a literal NUL, so the two are indistinguishable in
the character the cursor reports. -/
theorem c10_nul_sentinel :
    (∀ s : Stream, s.chars = [] → s.next = (s, EOF)) ∧
    (∀ (s : Stream) (cat : Catcher), s.chars = [] →
      charP EOF s cat = Option.some (PResult.ok s EOF, cat)) ∧
    (∀ s : Stream,
      s.next.2 = EOF ↔ s.chars = [] ∨ s.chars.head? = Option.some EOF) := by
  refine ⟨?_, ?_, ?_⟩
  · intro s h
    rcases s with ⟨chars, text⟩
    simp only at h
    subst h
    rfl
  · intro s cat h
    rcases s with ⟨chars, text⟩
    simp only at h
    subst h
    rfl
  · intro s
    rcases s with ⟨chars, text⟩
    cases chars with
    | nil => simp [Stream.next]
    | cons c rest => simp [Stream.next]

theorem c10_witness :
    charP EOF (Stream.new []) (Catcher.new []) =
      Option.some (PResult.ok (Stream.new []) EOF, Catcher.new []) :=
  c10_nul_sentinel.2.1 (Stream.new []) (Catcher.new []) rfl

/-- Claim C8, counterexample: cursor equality compares the residual
*content*, so two cursors over different sources with equal residual
lengths are not equal — equality by residual length alone fails for
arbitrary cursor pairs. -/
theorem c8_counterexample :
    Stream.eq (Stream.new ['a']) (Stream.new ['b']) = false ∧
    (Stream.new ['a']).rest_len = (Stream.new ['b']).rest_len := by
  decide

/-- Claim C8, amended: for two cursors over the same source text (each a
suffix cursor of that text, as every cursor produced by `new`/`next`
is), equality holds exactly when the residual lengths are equal. -/
theorem c8_eq_iff_rest_len_amended (s1 s2 : Stream) (htext : s1.text = s2.text)
    (h1 : List.IsSuffix s1.chars s1.text)
    (h2 : List.IsSuffix s2.chars s2.text) :
    Stream.eq s1 s2 = true ↔ s1.rest_len = s2.rest_len := by
  unfold Stream.eq Stream.rest_len
  rw [beq_iff_eq]
  constructor
  · intro h
    rw [h]
  · intro hlen
    obtain ⟨t1, ht1⟩ := h1
    obtain ⟨t2, ht2⟩ := h2
    rw [htext, ← ht2] at ht1
    have hlt : t1.length = t2.length := by
      have := congrArg List.length ht1
      simp only [List.length_append] at this
      omega
    exact (List.append_inj ht1 hlt).2

theorem c8_witness :
    Stream.eq (Stream.new ['a', 'b']) (Stream.new ['a', 'b']) = true ↔
      (Stream.new ['a', 'b']).rest_len = (Stream.new ['a', 'b']).rest_len :=
  c8_eq_iff_rest_len_amended (Stream.new ['a', 'b']) (Stream.new ['a', 'b'])
    rfl (by decide) (by decide)

theorem strAux_ok_len (lit : String) :
    ∀ (l : List Char), EOF ∉ l →
    ∀ (stream start : Stream) (cat : Catcher) s' r cat',
    strAux lit l stream start cat = Option.some (PResult.ok s' r, cat') →
    l.length ≤ stream.rest_len ∧ s'.rest_len = stream.rest_len - l.length := by
  intro l
  induction l with
  | nil =>
    intro _ stream start cat s' r cat' h
    unfold strAux at h
    simp only [Stream.ok, Option.some.injEq, Prod.mk.injEq, PResult.ok.injEq] at h
    rw [← h.1.1]
    simp
  | cons ch rest ih =>
    intro hnul stream start cat s' r cat' h
    unfold strAux at h
    by_cases hc : ch ≠ (stream.next).2
    · rw [if_pos hc] at h
      simp [Stream.err] at h
    · rw [if_neg hc] at h
      rw [Decidable.not_not] at hc
      rcases stream with ⟨chars, text⟩
      cases chars with
      | nil =>
        exfalso
        apply hnul
        rw [hc]
        simp [Stream.next]
      | cons c cs =>
        have hrest : EOF ∉ rest := fun hr => hnul (List.mem_cons_of_mem ch hr)
        have := ih hrest _ start cat s' r cat' h
        simp only [Stream.next] at this
        simp only [Stream.rest_len, List.length_cons] at this ⊢
        omega

theorem strAux_error_exit (lit : String) :
    ∀ (l : List Char) (stream start : Stream) (cat : Catcher) e cat',
    strAux lit l stream start cat = Option.some (PResult.error e, cat') →
    (Stream.err start (ErrorMessage.expected (Expected.str lit)) cat :
        Option (PResult String × Catcher)) =
      Option.some (PResult.error e, cat') := by
  intro l
  induction l with
  | nil =>
    intro stream start cat e cat' h
    unfold strAux at h
    simp [Stream.ok] at h
  | cons ch rest ih =>
    intro stream start cat e cat' h
    unfold strAux at h
    by_cases hc : ch ≠ (stream.next).2
    · rw [if_pos hc] at h
      exact h
    · rw [if_neg hc] at h
      exact ih _ start cat e cat' h

theorem catch_new_fst_stream (s : Stream) (m : ErrorMessage) (cat : Catcher)
    (h : cat.is_started = true → s.rest_len ≤ cat.chars.length) :
    ((s.catch (Error.new s m) cat).1).stream = s := by
  unfold Stream.catch
  by_cases hst : cat.is_started = false
  · rw [if_pos hst]
    rfl
  · rw [if_neg hst]
    rw [Bool.not_eq_false] at hst
    have hle := h hst
    simp only [Catcher.pop_error]
    unfold Error.or Error.new
    simp only
    have hcand : ({ chars := cat.chars, text := s.text } : Stream).rest_len =
        cat.chars.length := rfl
    by_cases heq : s.rest_len = cat.chars.length
    · rw [if_pos (by rw [hcand]; exact heq)]
    · rw [if_neg (by rw [hcand]; exact heq),
        if_pos (by rw [hcand]; exact Nat.lt_of_le_of_ne hle heq)]

/-- Claim C4, amended: for a literal free of the NUL sentinel, success
consumes exactly the literal's length (which therefore fits in the
input); on failure the parser builds its error at the original start
cursor, and the returned error sits at that cursor whenever suppression
is active, or suppression is inactive and the catcher's recorded
failure is no deeper than the start cursor.  (A literal containing NUL
can "match" past end of input consuming less than its length, and with
a strictly deeper recorded failure the returned merged error sits at
the recorded position instead.) -/
theorem c4_str_all_or_nothing_amended (lit : String) (s : Stream)
    (cat : Catcher) :
    (∀ s' r cat', EOF ∉ lit.toList →
      strP lit s cat = Option.some (PResult.ok s' r, cat') →
      lit.length ≤ s.rest_len ∧ s'.rest_len = s.rest_len - lit.length) ∧
    (∀ e cat', strP lit s cat = Option.some (PResult.error e, cat') →
      (cat.is_started = true → s.rest_len ≤ cat.chars.length) →
      e.stream = s) := by
  constructor
  · intro s' r cat' hnul h
    unfold strP at h
    have := strAux_ok_len lit lit.toList hnul s s cat s' r cat' h
    exact this
  · intro e cat' h hcat
    unfold strP at h
    have h2 := strAux_error_exit lit lit.toList s s cat e cat' h
    unfold Stream.err at h2
    simp only [Option.some.injEq, Prod.mk.injEq, PResult.error.injEq] at h2
    rw [← h2.1]
    exact catch_new_fst_stream s (ErrorMessage.expected (Expected.str lit)) cat hcat

/-- Claim C4, counterexample: (a) the literal consisting of the NUL
sentinel parses successfully at end of input, consuming nothing although
its length is 1, so the returned residual is not the input residual
minus the literal's length; (b) after a realistic preceding failure has
been recorded (running `"ab".seq('c')` on `"abd"`), a failing literal
match returns an error at residual length 1 rather than at the start
cursor's residual length 3. -/
theorem c4_counterexample :
    (strP (String.mk [EOF]) (Stream.new []) (Catcher.new []) =
        Option.some (PResult.ok (Stream.new []) (String.mk [EOF]),
          Catcher.new []) ∧
      ((Stream.new []).rest_len : Int) ≠
        ((Stream.new []).rest_len : Int) - ((String.mk [EOF]).length : Int)) ∧
    ((match strP (("xy")) (Stream.new (("abd").toList)) c4CatX with
      | Option.some (PResult.error e, _) => e.stream.rest_len
      | _ => 999) = 1 ∧
      (Stream.new (("abd").toList)).rest_len = 3 ∧ (1 : Nat) ≠ 3) := by
  decide

theorem c4_witness :
    ("ab").length ≤ (Stream.new (("abc").toList)).rest_len ∧
      ({ chars := ['c'], text := ("abc").toList } : Stream).rest_len =
        (Stream.new (("abc").toList)).rest_len - ("ab").length :=
  (c4_str_all_or_nothing_amended ("ab") (Stream.new (("abc").toList))
      (Catcher.new (("abc").toList))).1
    { chars := ['c'], text := ("abc").toList } ("ab")
    (Catcher.new (("abc").toList)) (by decide) (by decide)

theorem manyLoop_spec {R : Type} (p : ParserFn R) :
    ∀ (fuel : Nat) (acc : List R) (s : Stream) (cat : Catcher) res catF,
    manyLoop p fuel acc s cat = Option.some (res, catF) →
    ∃ s' cat1 rs err cat2,
      res = PResult.ok s' (acc ++ rs) ∧ ManyChain p s cat s' cat1 rs ∧
      p s' cat1 = Option.some (PResult.error err, cat2) ∧
      catF = (s'.catch err cat2).2 := by
  intro fuel
  induction fuel with
  | zero =>
    intro acc s cat res catF h
    simp [manyLoop] at h
  | succ fuel ih =>
    intro acc s cat res catF h
    unfold manyLoop at h
    split at h
    · cases h
    · rename_i s1 r cat1 hp
      obtain ⟨s', cat1', rs, err, cat2, h1, h2, h3, h4⟩ :=
        ih (acc ++ [r]) s1 cat1 res catF h
      exact ⟨s', cat1', r :: rs, err, cat2, by rw [h1]; simp,
        ManyChain.cons _ _ _ _ _ _ _ _ hp h2, h3, h4⟩
    · rename_i err cat1 hp
      simp only [Stream.ok, Option.some.injEq, Prod.mk.injEq] at h
      exact ⟨s, cat, [], err, cat1, by rw [← h.1]; simp,
        ManyChain.nil s cat, hp, h.2.symm⟩

/-- Claim C5, amended: whenever `many` terminates it succeeds: its value
is the list of results of a maximal chain of successful applications of
the inner parser, the returned cursor is the cursor reached after the
last successful application, and the terminating attempt both starts
and leaves the parse at that same cursor (it consumes nothing), its
failure being registered with the catcher. -/
theorem c5_many_total_amended {R : Type} (p : ParserFn R) (s : Stream)
    (cat : Catcher) (res : PResult (List R)) (catF : Catcher)
    (h : Parser.many p s cat = Option.some (res, catF)) :
    ∃ s' cat1 rs err cat2,
      res = PResult.ok s' rs ∧ ManyChain p s cat s' cat1 rs ∧
      p s' cat1 = Option.some (PResult.error err, cat2) ∧
      catF = (s'.catch err cat2).2 := by
  unfold Parser.many at h
  obtain ⟨s', cat1, rs, err, cat2, h1, h2, h3, h4⟩ :=
    manyLoop_spec p (s.rest_len + 1) [] s cat res catF h
  exact ⟨s', cat1, rs, err, cat2, by rw [h1]; simp, h2, h3, h4⟩

/-- Claim C5, counterexample: `many` of an always-succeeding,
non-consuming parser does not return at all (the source's loop runs
forever), so `many` does not succeed for every parser and cursor. -/
theorem c5_counterexample :
    Parser.many epsP (Stream.new ['a']) (Catcher.new ['a']) = Option.none := by
  decide

theorem c5_witness :
    ∃ s' cat1 rs err cat2,
      (PResult.ok ({ chars := ['b'], text := ("aab").toList } : Stream)
          (['a', 'a']) : PResult (List Char)) = PResult.ok s' rs ∧
      ManyChain (charP 'a') (Stream.new (("aab").toList))
        (Catcher.new (("aab").toList)) s' cat1 rs ∧
      charP 'a' s' cat1 = Option.some (PResult.error err, cat2) ∧
      ({ chars := ['b'],
          messages := {ErrorMessage.expected (Expected.char 'a')},
          is_started := true } : Catcher) = (s'.catch err cat2).2 :=
  c5_many_total_amended (charP 'a') (Stream.new (("aab").toList))
    (Catcher.new (("aab").toList))
    (PResult.ok { chars := ['b'], text := ("aab").toList } ['a', 'a'])
    { chars := ['b'],
      messages := {ErrorMessage.expected (Expected.char 'a')},
      is_started := true } (by decide)

theorem mono_charP (c : Char) : Mono (charP c) := by
  intro s cat s' r cat' h
  unfold charP at h
  dsimp only at h
  split at h
  · simp only [Stream.ok, Option.some.injEq, Prod.mk.injEq, PResult.ok.injEq] at h
    rw [← h.1.1]
    exact Stream.next_fst_rest_len s
  · simp [Stream.err] at h

theorem strAux_ok_le (lit : String) :
    ∀ (l : List Char) (stream start : Stream) (cat : Catcher) s' r cat',
    strAux lit l stream start cat = Option.some (PResult.ok s' r, cat') →
    s'.rest_len ≤ stream.rest_len := by
  intro l
  induction l with
  | nil =>
    intro stream start cat s' r cat' h
    unfold strAux at h
    simp only [Stream.ok, Option.some.injEq, Prod.mk.injEq, PResult.ok.injEq] at h
    rw [← h.1.1]
  | cons ch rest ih =>
    intro stream start cat s' r cat' h
    unfold strAux at h
    dsimp only at h
    split at h
    · simp [Stream.err] at h
    · exact Nat.le_trans (ih _ start cat s' r cat' h)
        (Stream.next_fst_rest_len stream)

theorem mono_strP (lit : String) : Mono (strP lit) := by
  intro s cat s' r cat' h
  exact strAux_ok_le lit lit.toList s s cat s' r cat' h

theorem mono_rangeP (lo hi : Char) : Mono (rangeP lo hi) := by
  intro s cat s' r cat' h
  unfold rangeP at h
  dsimp only at h
  split at h
  · simp only [Stream.ok, Option.some.injEq, Prod.mk.injEq, PResult.ok.injEq] at h
    rw [← h.1.1]
    exact Stream.next_fst_rest_len s
  · simp [Stream.err] at h

theorem mono_rangeInclP (lo hi : Char) : Mono (rangeInclP lo hi) := by
  intro s cat s' r cat' h
  unfold rangeInclP at h
  dsimp only at h
  split at h
  · simp only [Stream.ok, Option.some.injEq, Prod.mk.injEq, PResult.ok.injEq] at h
    rw [← h.1.1]
    exact Stream.next_fst_rest_len s
  · simp [Stream.err] at h

theorem mono_oneOfP (chars : List Char) (name : String) :
    Mono (oneOfP chars name) := by
  intro s cat s' r cat' h
  unfold oneOfP at h
  dsimp only at h
  split at h
  · simp only [Stream.ok, Option.some.injEq, Prod.mk.injEq, PResult.ok.injEq] at h
    rw [← h.1.1]
    exact Stream.next_fst_rest_len s
  · simp [Stream.err] at h

theorem mono_anyP : Mono anyP := by
  intro s cat s' r cat' h
  unfold anyP at h
  dsimp only at h
  split at h
  · simp only [Stream.ok, Option.some.injEq, Prod.mk.injEq, PResult.ok.injEq] at h
    rw [← h.1.1]
    exact Stream.next_fst_rest_len s
  · simp [Stream.err] at h

theorem mono_or {R : Type} (p1 p2 : ParserFn R) (h1 : Mono p1)
    (h2 : Mono p2) : Mono (Parser.or p1 p2) := by
  intro s cat s' r cat' h
  unfold Parser.or at h
  split at h
  · cases h
  · rename_i s1 r1 cat1 hp
    simp only [Option.some.injEq, Prod.mk.injEq, PResult.ok.injEq] at h
    rw [← h.1.1]
    exact h1 s cat s1 r1 cat1 hp
  · rename_i e1 cat1 hp1
    split at h
    · cases h
    · rename_i s2 r2 cat2 hp2
      simp only [Option.some.injEq, Prod.mk.injEq, PResult.ok.injEq] at h
      rw [← h.1.1]
      exact h2 s cat1 s2 r2 cat2 hp2
    · simp at h

theorem mono_seq {R S : Type} (p1 : ParserFn R) (p2 : ParserFn S)
    (h1 : Mono p1) (h2 : Mono p2) : Mono (Parser.seq p1 p2) := by
  intro s cat s' r cat' h
  unfold Parser.seq at h
  split at h
  · cases h
  · cases h
  · rename_i s1 r1 cat1 hp1
    split at h
    · cases h
    · cases h
    · rename_i s2 r2 cat2 hp2
      simp only [Stream.ok, Option.some.injEq, Prod.mk.injEq,
        PResult.ok.injEq] at h
      rw [← h.1.1]
      exact Nat.le_trans (h2 s1 cat1 s2 r2 cat2 hp2) (h1 s cat s1 r1 cat1 hp1)

theorem mono_and_not {R S : Type} (p1 : ParserFn R) (p2 : ParserFn S)
    (dbg : String) (h1 : Mono p1) : Mono (Parser.and_not p1 p2 dbg) := by
  intro s cat s' r cat' h
  unfold Parser.and_not at h
  split at h
  · cases h
  · cases h
  · rename_i s1 r1 cat1 hp1
    split at h
    · cases h
    · simp [Stream.err] at h
    · rename_i e2 cat2 hp2
      simp only [Stream.ok, Option.some.injEq, Prod.mk.injEq,
        PResult.ok.injEq] at h
      rw [← h.1.1]
      exact h1 s cat s1 r1 cat1 hp1

theorem mono_prepend {R : Type} (p1 : ParserFn R) (p2 : ParserFn (List R))
    (h1 : Mono p1) (h2 : Mono p2) : Mono (Parser.prepend p1 p2) := by
  intro s cat s' r cat' h
  unfold Parser.prepend at h
  split at h
  · cases h
  · cases h
  · rename_i s1 r1 cat1 hp1
    split at h
    · cases h
    · cases h
    · rename_i s2 r2 cat2 hp2
      simp only [Stream.ok, Option.some.injEq, Prod.mk.injEq,
        PResult.ok.injEq] at h
      rw [← h.1.1]
      exact Nat.le_trans (h2 s1 cat1 s2 r2 cat2 hp2) (h1 s cat s1 r1 cat1 hp1)

theorem mono_opt {R : Type} (p : ParserFn R) (hp : Mono p) :
    Mono (Parser.opt p) := by
  intro s cat s' r cat' h
  unfold Parser.opt at h
  split at h
  · cases h
  · rename_i s1 r1 cat1 hp1
    simp only [Stream.ok, Option.some.injEq, Prod.mk.injEq,
      PResult.ok.injEq] at h
    rw [← h.1.1]
    exact hp s cat s1 r1 cat1 hp1
  · rename_i e cat1 hp1
    simp only [Stream.ok, Option.some.injEq, Prod.mk.injEq,
      PResult.ok.injEq] at h
    rw [← h.1.1]

theorem mono_manyLoop {R : Type} (p : ParserFn R) (hp : Mono p) :
    ∀ (fuel : Nat) (acc : List R) (s : Stream) (cat : Catcher) s' r catF,
    manyLoop p fuel acc s cat = Option.some (PResult.ok s' r, catF) →
    s'.rest_len ≤ s.rest_len := by
  intro fuel
  induction fuel with
  | zero =>
    intro acc s cat s' r catF h
    simp [manyLoop] at h
  | succ fuel ih =>
    intro acc s cat s' r catF h
    unfold manyLoop at h
    split at h
    · cases h
    · rename_i s1 r1 cat1 hp1
      exact Nat.le_trans (ih (acc ++ [r1]) s1 cat1 s' r catF h)
        (hp s cat s1 r1 cat1 hp1)
    · rename_i e cat1 hp1
      simp only [Stream.ok, Option.some.injEq, Prod.mk.injEq,
        PResult.ok.injEq] at h
      rw [← h.1.1]

theorem mono_many {R : Type} (p : ParserFn R) (hp : Mono p) :
    Mono (Parser.many p) := by
  intro s cat s' r cat' h
  exact mono_manyLoop p hp (s.rest_len + 1) [] s cat s' r cat' h

theorem mono_in_range {R : Type} (p : ParserFn R) (lo hi : Nat)
    (hp : Mono p) : Mono (Parser.in_range p lo hi) := by
  intro s cat s' r cat' h
  unfold Parser.in_range at h
  split at h
  · cases h
  · cases h
  · rename_i s1 r1 cat1 hp1
    split at h
    · simp only [Stream.ok, Option.some.injEq, Prod.mk.injEq,
        PResult.ok.injEq] at h
      rw [← h.1.1]
      exact mono_many p hp s cat s1 r1 cat1 hp1
    · simp [Stream.err] at h

theorem mono_map {R S : Type} (p : ParserFn R) (f : R → S) (hp : Mono p) :
    Mono (Parser.map p f) := by
  intro s cat s' r cat' h
  unfold Parser.map at h
  split at h
  · cases h
  · cases h
  · rename_i s1 r1 cat1 hp1
    simp only [Option.some.injEq, Prod.mk.injEq, PResult.ok.injEq] at h
    rw [← h.1.1]
    exact hp s cat s1 r1 cat1 hp1

theorem mono_as_string (p : ParserFn (List Char)) (hp : Mono p) :
    Mono (Parser.as_string p) :=
  mono_map p (fun r => String.mk r) hp

theorem mono_someP {R : Type} (p : ParserFn R) (hp : Mono p) :
    Mono (Parser.some p) :=
  mono_prepend p (Parser.many p) hp (mono_many p hp)

theorem mono_ignore_prev {R S : Type} (p1 : ParserFn R) (p2 : ParserFn S)
    (h1 : Mono p1) (h2 : Mono p2) : Mono (Parser.ignore_prev p1 p2) := by
  intro s cat s' r cat' h
  unfold Parser.ignore_prev at h
  split at h
  · cases h
  · cases h
  · rename_i s1 r1 cat1 hp1
    split at h
    · cases h
    · cases h
    · rename_i s2 r2 cat2 hp2
      simp only [Stream.ok, Option.some.injEq, Prod.mk.injEq,
        PResult.ok.injEq] at h
      rw [← h.1.1]
      exact Nat.le_trans (h2 s1 cat1 s2 r2 cat2 hp2) (h1 s cat s1 r1 cat1 hp1)

theorem mono_ignore_this {R S : Type} (p1 : ParserFn R) (p2 : ParserFn S)
    (h1 : Mono p1) (h2 : Mono p2) : Mono (Parser.ignore_this p1 p2) := by
  intro s cat s' r cat' h
  unfold Parser.ignore_this at h
  split at h
  · cases h
  · cases h
  · rename_i s1 r1 cat1 hp1
    split at h
    · cases h
    · cases h
    · rename_i s2 r2 cat2 hp2
      simp only [Stream.ok, Option.some.injEq, Prod.mk.injEq,
        PResult.ok.injEq] at h
      rw [← h.1.1]
      exact Nat.le_trans (h2 s1 cat1 s2 r2 cat2 hp2) (h1 s cat s1 r1 cat1 hp1)

theorem mono_opt_default {R : Type} (p : ParserFn R) (dflt : R)
    (hp : Mono p) : Mono (Parser.opt_default p dflt) := by
  intro s cat s' r cat' h
  unfold Parser.opt_default at h
  split at h
  · cases h
  · cases h
  · rename_i s1 r1 cat1 hp1
    simp only [Stream.ok, Option.some.injEq, Prod.mk.injEq,
      PResult.ok.injEq] at h
    rw [← h.1.1]
    exact mono_opt p hp s cat s1 r1 cat1 hp1

theorem mono_list {R S : Type} (p : ParserFn R) (sep : ParserFn S)
    (hp : Mono p) (hsep : Mono sep) : Mono (Parser.list p sep) :=
  mono_prepend p (Parser.many (Parser.ignore_prev sep p)) hp
    (mono_many (Parser.ignore_prev sep p) (mono_ignore_prev sep p hsep hp))

theorem mono_list_trailing {R S : Type} (p : ParserFn R) (sep : ParserFn S)
    (hp : Mono p) (hsep : Mono sep) : Mono (Parser.list_trailing p sep) :=
  mono_ignore_this
    (Parser.prepend p (Parser.many (Parser.ignore_prev sep p)))
    (Parser.opt sep)
    (mono_prepend p (Parser.many (Parser.ignore_prev sep p)) hp
      (mono_many (Parser.ignore_prev sep p) (mono_ignore_prev sep p hsep hp)))
    (mono_opt sep hsep)

theorem mono_rule {R : Type} (p : ParserFn R) (name : String)
    (hp : Mono p) : Mono (Parser.rule p name) := by
  intro s cat s' r cat' h
  simp only [Parser.rule, Catcher.set_started] at h
  rcases ha : p s { cat with is_started := false } with _ | ⟨res0, c0⟩
  · rw [ha] at h
    cases h
  · rw [ha] at h
    rcases res0 with ⟨s1, r1⟩ | e
    · simp only [Option.some.injEq, Prod.mk.injEq, PResult.ok.injEq] at h
      rw [← h.1.1]
      exact hp s { cat with is_started := false } s1 r1 c0 ha
    · simp at h

/-- Claim C7: consumption is monotone — every primitive matcher
satisfies `Mono` (successful parses never lengthen the residual), and
every combinator preserves `Mono` when its component parsers satisfy
it. -/
theorem c7_consumption_monotonic :
    (∀ c, Mono (charP c)) ∧
    (∀ lit, Mono (strP lit)) ∧
    (∀ lo hi, Mono (rangeP lo hi)) ∧
    (∀ lo hi, Mono (rangeInclP lo hi)) ∧
    (∀ chars name, Mono (oneOfP chars name)) ∧
    Mono anyP ∧
    (∀ (R : Type) (p1 p2 : ParserFn R), Mono p1 → Mono p2 →
      Mono (Parser.or p1 p2)) ∧
    (∀ (R S : Type) (p1 : ParserFn R) (p2 : ParserFn S), Mono p1 → Mono p2 →
      Mono (Parser.seq p1 p2)) ∧
    (∀ (R S : Type) (p1 : ParserFn R) (p2 : ParserFn S) dbg, Mono p1 →
      Mono (Parser.and_not p1 p2 dbg)) ∧
    (∀ (R : Type) (p1 : ParserFn R) (p2 : ParserFn (List R)), Mono p1 →
      Mono p2 → Mono (Parser.prepend p1 p2)) ∧
    (∀ (R : Type) (p : ParserFn R), Mono p → Mono (Parser.opt p)) ∧
    (∀ (R : Type) (p : ParserFn R), Mono p → Mono (Parser.many p)) ∧
    (∀ (R : Type) (p : ParserFn R) lo hi, Mono p →
      Mono (Parser.in_range p lo hi)) ∧
    (∀ (R S : Type) (p : ParserFn R) (f : R → S), Mono p →
      Mono (Parser.map p f)) ∧
    (∀ p : ParserFn (List Char), Mono p → Mono (Parser.as_string p)) ∧
    (∀ (R : Type) (p : ParserFn R), Mono p → Mono (Parser.some p)) ∧
    (∀ (R S : Type) (p1 : ParserFn R) (p2 : ParserFn S), Mono p1 → Mono p2 →
      Mono (Parser.ignore_prev p1 p2)) ∧
    (∀ (R S : Type) (p1 : ParserFn R) (p2 : ParserFn S), Mono p1 → Mono p2 →
      Mono (Parser.ignore_this p1 p2)) ∧
    (∀ (R : Type) (p : ParserFn R) dflt, Mono p →
      Mono (Parser.opt_default p dflt)) ∧
    (∀ (R S : Type) (p : ParserFn R) (sep : ParserFn S), Mono p → Mono sep →
      Mono (Parser.list p sep)) ∧
    (∀ (R S : Type) (p : ParserFn R) (sep : ParserFn S), Mono p → Mono sep →
      Mono (Parser.list_trailing p sep)) ∧
    (∀ (R : Type) (p : ParserFn R) name, Mono p →
      Mono (Parser.rule p name)) :=
  ⟨mono_charP, mono_strP, mono_rangeP, mono_rangeInclP, mono_oneOfP,
    mono_anyP,
    fun _ p1 p2 h1 h2 => mono_or p1 p2 h1 h2,
    fun _ _ p1 p2 h1 h2 => mono_seq p1 p2 h1 h2,
    fun _ _ p1 p2 dbg h1 => mono_and_not p1 p2 dbg h1,
    fun _ p1 p2 h1 h2 => mono_prepend p1 p2 h1 h2,
    fun _ p h => mono_opt p h,
    fun _ p h => mono_many p h,
    fun _ p lo hi h => mono_in_range p lo hi h,
    fun _ _ p f h => mono_map p f h,
    fun p h => mono_as_string p h,
    fun _ p h => mono_someP p h,
    fun _ _ p1 p2 h1 h2 => mono_ignore_prev p1 p2 h1 h2,
    fun _ _ p1 p2 h1 h2 => mono_ignore_this p1 p2 h1 h2,
    fun _ p dflt h => mono_opt_default p dflt h,
    fun _ _ p sep h hs => mono_list p sep h hs,
    fun _ _ p sep h hs => mono_list_trailing p sep h hs,
    fun _ p name h => mono_rule p name h⟩

theorem c7_witness : Mono (Parser.or (charP 'a') anyP) :=
  c7_consumption_monotonic.2.2.2.2.2.2.1 Char (charP 'a') anyP
    (c7_consumption_monotonic.1 'a')
    c7_consumption_monotonic.2.2.2.2.2.1

theorem catch_not_started (s : Stream) (e : Error) (cat : Catcher)
    (h : cat.is_started = false) : Stream.catch s e cat = (e, cat) := by
  unfold Stream.catch
  rw [if_pos h]

theorem err_not_started {R : Type} (s : Stream) (m : ErrorMessage)
    (cat : Catcher) (h : cat.is_started = false) :
    (Stream.err s m cat : Option (PResult R × Catcher)) =
      Option.some (PResult.error (Error.new s m), cat) := by
  unfold Stream.err
  rw [catch_not_started s (Error.new s m) cat h]

theorem or_ok_left {R : Type} (p1 p2 : ParserFn R) (s : Stream)
    (cat : Catcher) (s1 : Stream) (r : R) (cat1 : Catcher)
    (h : p1 s cat = Option.some (PResult.ok s1 r, cat1)) :
    Parser.or p1 p2 s cat = Option.some (PResult.ok s1 r, cat1) := by
  unfold Parser.or
  rw [h]

theorem or_ok_right {R : Type} (p1 p2 : ParserFn R) (s : Stream)
    (cat : Catcher) (e1 : Error) (cat1 : Catcher) (s2 : Stream) (r : R)
    (cat2 : Catcher)
    (h1 : p1 s cat = Option.some (PResult.error e1, cat1))
    (h2 : p2 s cat1 = Option.some (PResult.ok s2 r, cat2)) :
    Parser.or p1 p2 s cat = Option.some (PResult.ok s2 r, cat2) := by
  unfold Parser.or
  rw [h1]
  dsimp only
  rw [h2]

theorem or_err_err {R : Type} (p1 p2 : ParserFn R) (s : Stream)
    (cat : Catcher) (e1 : Error) (cat1 : Catcher) (e2 : Error)
    (cat2 : Catcher)
    (h1 : p1 s cat = Option.some (PResult.error e1, cat1))
    (h2 : p2 s cat1 = Option.some (PResult.error e2, cat2))
    (hsup : cat2.is_started = false) :
    Parser.or p1 p2 s cat = Option.some (PResult.error (e1.or e2), cat2) := by
  unfold Parser.or
  rw [h1]
  dsimp only
  rw [h2]
  dsimp only
  rw [catch_not_started e1.stream (e1.or e2) cat2 hsup]

theorem map_err_through {R S : Type} (p : ParserFn R) (f : R → S)
    (s : Stream) (cat : Catcher) (e : Error) (cat1 : Catcher)
    (h : p s cat = Option.some (PResult.error e, cat1)) :
    Parser.map p f s cat = Option.some (PResult.error e, cat1) := by
  unfold Parser.map
  rw [h]

theorem ignore_prev_err {R S : Type} (p1 : ParserFn R) (p2 : ParserFn S)
    (s : Stream) (cat : Catcher) (e : Error) (cat1 : Catcher)
    (h : p1 s cat = Option.some (PResult.error e, cat1)) :
    Parser.ignore_prev p1 p2 s cat = Option.some (PResult.error e, cat1) := by
  unfold Parser.ignore_prev
  rw [h]

theorem ignore_prev_ok {R S : Type} (p1 : ParserFn R) (p2 : ParserFn S)
    (s : Stream) (cat : Catcher) (s1 : Stream) (r1 : R) (cat1 : Catcher)
    (s2 : Stream) (r2 : S) (cat2 : Catcher)
    (h1 : p1 s cat = Option.some (PResult.ok s1 r1, cat1))
    (h2 : p2 s1 cat1 = Option.some (PResult.ok s2 r2, cat2)) :
    Parser.ignore_prev p1 p2 s cat = Option.some (PResult.ok s2 r2, cat2) := by
  unfold Parser.ignore_prev
  rw [h1]
  dsimp only
  rw [h2]
  rfl

theorem ignore_this_ok {R S : Type} (p1 : ParserFn R) (p2 : ParserFn S)
    (s : Stream) (cat : Catcher) (s1 : Stream) (r1 : R) (cat1 : Catcher)
    (s2 : Stream) (r2 : S) (cat2 : Catcher)
    (h1 : p1 s cat = Option.some (PResult.ok s1 r1, cat1))
    (h2 : p2 s1 cat1 = Option.some (PResult.ok s2 r2, cat2)) :
    Parser.ignore_this p1 p2 s cat = Option.some (PResult.ok s2 r1, cat2) := by
  unfold Parser.ignore_this
  rw [h1]
  dsimp only
  rw [h2]
  rfl

theorem or_stream_same (e1 e2 : Error) (s : Stream) (h1 : e1.stream = s)
    (h2 : e2.stream = s) : (e1.or e2).stream = s := by
  unfold Error.or
  rw [if_pos (by rw [h1, h2])]
  exact h1

theorem manyLoop_step_ok {R : Type} (p : ParserFn R) (k : Nat)
    (acc : List R) (s : Stream) (cat : Catcher) (s1 : Stream) (r : R)
    (cat1 : Catcher) (h : p s cat = Option.some (PResult.ok s1 r, cat1)) :
    manyLoop p (k + 1) acc s cat = manyLoop p k (acc ++ [r]) s1 cat1 := by
  conv_lhs => unfold manyLoop
  rw [h]

theorem manyLoop_step_err {R : Type} (p : ParserFn R) (k : Nat)
    (acc : List R) (s : Stream) (cat : Catcher) (e : Error) (cat1 : Catcher)
    (h : p s cat = Option.some (PResult.error e, cat1)) :
    manyLoop p (k + 1) acc s cat =
      Option.some (PResult.ok s acc, (s.catch e cat1).2) := by
  conv_lhs => unfold manyLoop
  rw [h]
  rfl

theorem rangeInclP_ok (lo hi : Char) (s : Stream) (cat : Catcher)
    (hc : lo ≤ s.next.2 ∧ s.next.2 ≤ hi) :
    rangeInclP lo hi s cat =
      Option.some (PResult.ok s.next.1 s.next.2, cat) := by
  unfold rangeInclP
  dsimp only
  rw [if_pos hc]
  rfl

theorem rangeInclP_fail (lo hi : Char) (s : Stream) (cat : Catcher)
    (hsup : cat.is_started = false) (hc : ¬(lo ≤ s.next.2 ∧ s.next.2 ≤ hi)) :
    rangeInclP lo hi s cat =
      Option.some (PResult.error
        (Error.new s (ErrorMessage.expected (Expected.rangeIncl lo hi))),
        cat) := by
  unfold rangeInclP
  dsimp only
  rw [if_neg hc]
  exact err_not_started s _ cat hsup

theorem hexDigitP_ok (s : Stream) (cat : Catcher)
    (hsup : cat.is_started = false) (hc : isHexChar s.next.2) :
    hexDigitP s cat = Option.some (PResult.ok s.next.1 s.next.2, cat) := by
  unfold hexDigitP
  rcases hc with h09 | haf | hAF
  · exact or_ok_left _ _ _ _ _ _ _
      (or_ok_left _ _ _ _ _ _ _ (rangeInclP_ok _ _ _ _ h09))
  · have hnot : ¬(('0' : Char) ≤ s.next.2 ∧ s.next.2 ≤ '9') :=
      fun hcon => absurd (le_trans haf.1 hcon.2) (by decide)
    exact or_ok_left _ _ _ _ _ _ _
      (or_ok_right _ _ _ _ _ _ _ _ _ (rangeInclP_fail _ _ _ _ hsup hnot)
        (rangeInclP_ok _ _ _ _ haf))
  · have hnot9 : ¬(('0' : Char) ≤ s.next.2 ∧ s.next.2 ≤ '9') :=
      fun hcon => absurd (le_trans hAF.1 hcon.2) (by decide)
    have hnotf : ¬(('a' : Char) ≤ s.next.2 ∧ s.next.2 ≤ 'f') :=
      fun hcon => absurd (le_trans hcon.1 hAF.2) (by decide)
    exact or_ok_right _ _ _ _ _ _ _ _ _
      (or_err_err _ _ _ _ _ _ _ _ (rangeInclP_fail _ _ _ _ hsup hnot9)
        (rangeInclP_fail _ _ _ _ hsup hnotf) hsup)
      (rangeInclP_ok _ _ _ _ hAF)

theorem hexDigitP_fail (s : Stream) (cat : Catcher)
    (hsup : cat.is_started = false) (hc : ¬ isHexChar s.next.2) :
    ∃ e, hexDigitP s cat = Option.some (PResult.error e, cat) := by
  have h09 := rangeInclP_fail '0' '9' s cat hsup
    (fun hcon => hc (Or.inl hcon))
  have haf := rangeInclP_fail 'a' 'f' s cat hsup
    (fun hcon => hc (Or.inr (Or.inl hcon)))
  have hAF := rangeInclP_fail 'A' 'F' s cat hsup
    (fun hcon => hc (Or.inr (Or.inr hcon)))
  exact ⟨_, or_err_err _ _ _ _ _ _ _ _
    (or_err_err _ _ _ _ _ _ _ _ h09 haf hsup) hAF hsup⟩

theorem manyLoop_hex (t : List Char) (cat : Catcher)
    (hsup : cat.is_started = false) :
    ∀ (ds : List Char) (fuel : Nat) (acc xs : List Char),
    (∀ c ∈ ds, isHexChar c) → ¬ isHexChar ((⟨xs, t⟩ : Stream).next.2) →
    ds.length + 1 ≤ fuel →
    manyLoop hexDigitP fuel acc ⟨ds ++ xs, t⟩ cat =
      Option.some (PResult.ok ⟨xs, t⟩ (acc ++ ds), cat) := by
  intro ds
  induction ds with
  | nil =>
    intro fuel acc xs hds hx hfuel
    obtain ⟨k, rfl⟩ : ∃ k, fuel = k + 1 := ⟨fuel - 1, by omega⟩
    obtain ⟨e, he⟩ := hexDigitP_fail ⟨xs, t⟩ cat hsup hx
    rw [List.nil_append]
    rw [manyLoop_step_err hexDigitP k acc ⟨xs, t⟩ cat e cat he,
      catch_not_started _ _ _ hsup, List.append_nil]
  | cons d ds ih =>
    intro fuel acc xs hds hx hfuel
    obtain ⟨k, rfl⟩ : ∃ k, fuel = k + 1 := ⟨fuel - 1, by omega⟩
    have hok := hexDigitP_ok ⟨d :: (ds ++ xs), t⟩ cat hsup
      (hds d (List.mem_cons_self d ds))
    rw [List.cons_append]
    rw [manyLoop_step_ok hexDigitP k acc ⟨d :: (ds ++ xs), t⟩ cat
      ⟨ds ++ xs, t⟩ d cat hok]
    rw [ih k (acc ++ [d]) xs (fun c hcmem => hds c (List.mem_cons_of_mem d hcmem))
      hx (by simpa using Nat.lt_of_succ_le hfuel)]
    simp

theorem many_hex (ds xs t : List Char) (cat : Catcher)
    (hsup : cat.is_started = false) (hds : ∀ c ∈ ds, isHexChar c)
    (hx : ¬ isHexChar ((⟨xs, t⟩ : Stream).next.2)) :
    Parser.many hexDigitP ⟨ds ++ xs, t⟩ cat =
      Option.some (PResult.ok ⟨xs, t⟩ ds, cat) := by
  unfold Parser.many
  have := manyLoop_hex t cat hsup ds ((⟨ds ++ xs, t⟩ : Stream).rest_len + 1)
    [] xs hds hx (by simp only [Stream.rest_len, List.length_append]; omega)
  simpa using this

theorem in_range_hex (ds xs t : List Char) (cat : Catcher)
    (hsup : cat.is_started = false) (hds : ∀ c ∈ ds, isHexChar c)
    (hx : ¬ isHexChar ((⟨xs, t⟩ : Stream).next.2)) (lo hi : Nat)
    (hlen : lo ≤ ds.length ∧ ds.length ≤ hi) :
    Parser.in_range hexDigitP lo hi ⟨ds ++ xs, t⟩ cat =
      Option.some (PResult.ok ⟨xs, t⟩ ds, cat) := by
  unfold Parser.in_range
  rw [many_hex ds xs t cat hsup hds hx]
  dsimp only
  rw [if_pos hlen]
  rfl

theorem strP_u_brace_ok (tail t : List Char) (cat : Catcher) :
    strP ("\\u\x7b") ⟨'\\' :: 'u' :: '\x7b' :: tail, t⟩ cat =
      Option.some (PResult.ok ⟨tail, t⟩ ("\\u\x7b"), cat) := rfl

theorem charP_brace_ok (rest t : List Char) (cat : Catcher) :
    charP '\x7d' ⟨'\x7d' :: rest, t⟩ cat =
      Option.some (PResult.ok ⟨rest, t⟩ '\x7d', cat) := rfl

theorem strP2_fail_snd (lit : String) (c2 : Char)
    (hl : lit.toList = ['\\', c2]) (hne : c2 ≠ 'u') (tail t : List Char)
    (cat : Catcher) (hsup : cat.is_started = false) :
    strP lit ⟨'\\' :: 'u' :: tail, t⟩ cat =
      Option.some (PResult.error (Error.new ⟨'\\' :: 'u' :: tail, t⟩
        (ErrorMessage.expected (Expected.str lit))), cat) := by
  unfold strP
  rw [hl]
  unfold strAux
  dsimp only [Stream.next]
  rw [if_neg (by decide : ¬(('\\' : Char) ≠ '\\'))]
  unfold strAux
  dsimp only [Stream.next]
  rw [if_pos hne]
  exact err_not_started _ _ _ hsup

theorem escape_code_run (ds rest t : List Char) (cat : Catcher)
    (hsup : cat.is_started = false) (hds : ∀ c ∈ ds, isHexChar c)
    (h1 : 1 ≤ ds.length) (h6 : ds.length ≤ 6) :
    escape_code ⟨'\\' :: 'u' :: '\x7b' :: (ds ++ '\x7d' :: rest), t⟩ cat =
      if Nat.isValidChar (hexToNat ds) then
        Option.some (PResult.ok ⟨rest, t⟩ (Char.ofNat (hexToNat ds)), cat)
      else
        Option.some (PResult.error
          (Error.new ⟨'\\' :: 'u' :: '\x7b' :: (ds ++ '\x7d' :: rest), t⟩
            (ErrorMessage.text
              (("invalid unicode code ") ++ natToHex (hexToNat ds)))),
          cat) := by
  have hxfail := strP2_fail_snd ("\\x") 'x' rfl (by decide)
    ('\x7b' :: (ds ++ '\x7d' :: rest)) t cat hsup
  have hbx := ignore_prev_err (strP ("\\x")) (Parser.in_range hexDigitP 2 2)
    _ _ _ _ hxfail
  have hu := strP_u_brace_ok (ds ++ '\x7d' :: rest) t cat
  have hir := in_range_hex ds ('\x7d' :: rest) t cat hsup hds
    (by show ¬ isHexChar '\x7d'; decide) 1 6 ⟨h1, h6⟩
  have hip := ignore_prev_ok _ _ _ _ _ _ _ _ _ _ hu hir
  have hcl := charP_brace_ok rest t cat
  have hbu := ignore_this_ok _ _ _ _ _ _ _ _ _ _ hip hcl
  have hor := or_ok_right _ _ _ _ _ _ _ _ _ hbx hbu
  unfold escape_code
  dsimp only
  rw [hor]
  dsimp only
  by_cases hv : Nat.isValidChar (hexToNat ds)
  · rw [if_pos hv, if_pos hv]
    rfl
  · rw [if_neg hv, if_neg hv]
    exact err_not_started _ _ _ hsup

theorem escape_run (ds rest t : List Char) (cat : Catcher)
    (hds : ∀ c ∈ ds, isHexChar c) (h1 : 1 ≤ ds.length)
    (h6 : ds.length ≤ 6) :
    escape ⟨'\\' :: 'u' :: '\x7b' :: (ds ++ '\x7d' :: rest), t⟩ cat =
      if Nat.isValidChar (hexToNat ds) then
        Option.some (PResult.ok ⟨rest, t⟩ (Char.ofNat (hexToNat ds)), cat)
      else
        Option.some (PResult.error
          { stream := ⟨'\\' :: 'u' :: '\x7b' :: (ds ++ '\x7d' :: rest), t⟩,
            messages := {ErrorMessage.expected (Expected.rule ("escape"))} },
          cat) := by
  set s : Stream := ⟨'\\' :: 'u' :: '\x7b' :: (ds ++ '\x7d' :: rest), t⟩
    with hs
  set cat' : Catcher := { cat with is_started := false } with hcat
  have hsup : cat'.is_started = false := rfl
  have f1 := map_err_through (strP ("\\n")) (fun _ => '\n') s cat' _ _
    (strP2_fail_snd ("\\n") 'n' rfl (by decide) _ t cat' hsup)
  have f2 := map_err_through (strP ("\\0")) (fun _ => Char.ofNat 0) s cat' _ _
    (strP2_fail_snd ("\\0") '0' rfl (by decide) _ t cat' hsup)
  have f3 := map_err_through (strP ("\\r")) (fun _ => '\r') s cat' _ _
    (strP2_fail_snd ("\\r") 'r' rfl (by decide) _ t cat' hsup)
  have f4 := map_err_through (strP ("\\t")) (fun _ => '\t') s cat' _ _
    (strP2_fail_snd ("\\t") 't' rfl (by decide) _ t cat' hsup)
  have f5 := map_err_through (strP ("\\\\")) (fun _ => '\\') s cat' _ _
    (strP2_fail_snd ("\\\\") '\\' rfl (by decide) _ t cat' hsup)
  have o2 := or_err_err _ _ _ _ _ _ _ _ f1 f2 hsup
  have o3 := or_err_err _ _ _ _ _ _ _ _ o2 f3 hsup
  have o4 := or_err_err _ _ _ _ _ _ _ _ o3 f4 hsup
  have o5 := or_err_err _ _ _ _ _ _ _ _ o4 f5 hsup
  have hec := escape_code_run ds rest t cat' hsup hds h1 h6
  have hrestore : ({ cat' with is_started := cat.is_started } : Catcher) =
      cat := rfl
  by_cases hv : Nat.isValidChar (hexToNat ds)
  · rw [if_pos hv] at hec ⊢
    have horAll := or_ok_right _ _ _ _ _ _ _ _ _ o5 hec
    unfold escape
    dsimp only
    simp only [Parser.rule, Catcher.set_started]
    rw [horAll]
  · rw [if_neg hv] at hec ⊢
    have horAll := or_err_err _ _ _ _ _ _ _ _ o5 hec hsup
    have hstr : Error.stream
        ((((((Error.new s
          (ErrorMessage.expected (Expected.str ("\\n")))).or
          (Error.new s (ErrorMessage.expected (Expected.str ("\\0"))))).or
          (Error.new s (ErrorMessage.expected (Expected.str ("\\r"))))).or
          (Error.new s (ErrorMessage.expected (Expected.str ("\\t"))))).or
          (Error.new s (ErrorMessage.expected (Expected.str ("\\\\"))))).or
          (Error.new s (ErrorMessage.text
            (("invalid unicode code ") ++ natToHex (hexToNat ds))))) = s := by
      apply or_stream_same
      · apply or_stream_same
        · apply or_stream_same
          · apply or_stream_same
            · apply or_stream_same <;> rfl
            · rfl
          · rfl
        · rfl
      · rfl
    unfold escape
    dsimp only
    simp only [Parser.rule, Catcher.set_started]
    rw [horAll]
    dsimp only
    rw [Option.some.injEq, Prod.mk.injEq]
    constructor
    · rw [PResult.error.injEq]
      rw [Error.mk.injEq]
      exact ⟨hstr, rfl⟩
    · rfl

/-- Claim C9, counterexample: `escape` on the out-of-range escape
`\u{110000}` fails, but the error it returns carries exactly the single
named-rule message `expected rule escape` — the "invalid unicode code"
message is not among its messages. -/
theorem c9_counterexample :
    escape (Stream.new (("\\u\x7b110000\x7d").toList))
        (Catcher.new (("\\u\x7b110000\x7d").toList)) =
      Option.some (PResult.error
        { stream := Stream.new (("\\u\x7b110000\x7d").toList),
          messages := {ErrorMessage.expected (Expected.rule ("escape"))} },
        Catcher.new (("\\u\x7b110000\x7d").toList)) ∧
    ErrorMessage.text (("invalid unicode code 110000")) ∉
      ({ErrorMessage.expected (Expected.rule ("escape"))} :
        Finset ErrorMessage) := by
  decide

/-- Claim C9, amended: a unicode escape `\u{...}` with one to six hex
digits whose value is a valid unicode scalar decodes to that code point;
when the value is not a valid scalar, the inner escape-code parser —
which runs with the catcher suppressed inside the named rule — fails
with the "invalid unicode code" message, and the rule wrapper then
discards it: the error `escape` itself returns carries exactly the
single message `expected rule escape`. -/
theorem c9_escape_unicode_amended (ds rest t : List Char) (cat : Catcher)
    (hds : ∀ c ∈ ds, isHexChar c) (h1 : 1 ≤ ds.length)
    (h6 : ds.length ≤ 6) :
    (Nat.isValidChar (hexToNat ds) →
      escape ⟨'\\' :: 'u' :: '\x7b' :: (ds ++ '\x7d' :: rest), t⟩ cat =
        Option.some (PResult.ok ⟨rest, t⟩ (Char.ofNat (hexToNat ds)), cat)) ∧
    (¬ Nat.isValidChar (hexToNat ds) →
      (∀ cat2 : Catcher, cat2.is_started = false →
        escape_code ⟨'\\' :: 'u' :: '\x7b' :: (ds ++ '\x7d' :: rest), t⟩
            cat2 =
          Option.some (PResult.error
            (Error.new ⟨'\\' :: 'u' :: '\x7b' :: (ds ++ '\x7d' :: rest), t⟩
              (ErrorMessage.text
                (("invalid unicode code ") ++ natToHex (hexToNat ds)))),
            cat2)) ∧
      escape ⟨'\\' :: 'u' :: '\x7b' :: (ds ++ '\x7d' :: rest), t⟩ cat =
        Option.some (PResult.error
          { stream := ⟨'\\' :: 'u' :: '\x7b' :: (ds ++ '\x7d' :: rest), t⟩,
            messages := {ErrorMessage.expected (Expected.rule ("escape"))} },
          cat)) := by
  constructor
  · intro hv
    rw [escape_run ds rest t cat hds h1 h6, if_pos hv]
  · intro hv
    refine ⟨fun cat2 hsup2 => ?_, ?_⟩
    · rw [escape_code_run ds rest t cat2 hsup2 hds h1 h6, if_neg hv]
    · rw [escape_run ds rest t cat hds h1 h6, if_neg hv]

theorem c9_witness :
    escape ⟨'\\' :: 'u' :: '\x7b' :: (['1'] ++ '\x7d' :: []),
        ("\\u\x7b1\x7d").toList⟩ (Catcher.new (("\\u\x7b1\x7d").toList)) =
      Option.some (PResult.ok ⟨[], ("\\u\x7b1\x7d").toList⟩
        (Char.ofNat (hexToNat ['1'])),
        Catcher.new (("\\u\x7b1\x7d").toList)) :=
  (c9_escape_unicode_amended ['1'] [] (("\\u\x7b1\x7d").toList)
      (Catcher.new (("\\u\x7b1\x7d").toList)) (by decide) (by decide)
      (by decide)).1 (by decide)

end PC
